import Mathlib

/-!
Shallow embedding of `src/packages/config/src/index.ts` from the
`changesets` config package: the `parse` validator/assembler, the
`defaultWrittenConfig` template, `getNormalisedChangelogOption`, and the
exposed `defaultConfig` constant.

JavaScript runtime values are modelled by the inductive `JSValue`
(`undefined` is an explicit value, as in JS); the typed `WrittenConfig`
record holds one `JSValue` per recognised field, absence being
`.undefined`.  The external collaborators are modelled as inputs:
`Packages` is the workspace record, and the dependents-graph builder
`@changesets/get-dependents-graph` is passed to `parse` as an explicit
function argument `getDependentsGraph : Packages → DependentsGraph`.
The `warn` logging collaborator is modelled by the `warnings` list in
`ParseResult`; the thrown `ValidationError` and the `TypeError` raised by
destructuring a `null` experimental-options field (lines 198-201) are the
two failure constructors of `ParseOutcome`.
-/

namespace Changesets

/-- A JavaScript runtime value (JSON values plus `undefined`).  Numbers are
modelled as integers; only the values `parse` actually inspects matter. -/
inductive JSValue where
  | undefined
  | null
  | bool (b : Bool)
  | num (n : Int)
  | str (s : String)
  | arr (elems : List JSValue)
  | obj (fields : List (String × JSValue))
deriving Repr

/-- `v === undefined`. -/
def JSValue.isUndefined : JSValue → Bool
  | .undefined => true
  | _ => false

/-- `v === null`. -/
def JSValue.isNull : JSValue → Bool
  | .null => true
  | _ => false

/-- `v === false` (strict equality against the literal `false`). -/
def JSValue.isFalseLiteral : JSValue → Bool
  | .bool b => !b
  | _ => false

/-- `v === s` for a string literal `s` (strict equality). -/
def JSValue.strEq (v : JSValue) (s : String) : Bool :=
  match v with
  | .str t => t == s
  | _ => false

/-- `typeof v === "string"`. -/
def JSValue.typeofIsString : JSValue → Bool
  | .str _ => true
  | _ => false

/-- `typeof v === "boolean"`. -/
def JSValue.typeofIsBoolean : JSValue → Bool
  | .bool _ => true
  | _ => false

/-- `Array.isArray(v)`. -/
def JSValue.isArray : JSValue → Bool
  | .arr _ => true
  | _ => false

/-- JavaScript truthiness of a value (`if (v)`). -/
def JSValue.truthy : JSValue → Bool
  | .undefined => false
  | .null => false
  | .bool b => b
  | .num n => n != 0
  | .str s => s != ""
  | .arr _ => true
  | .obj _ => true

/-- Property access `v.key` on an object; `undefined` when absent or when
`v` is a non-object primitive (which JS coerces to a wrapper with no such
property).  JS property access on `null` throws a `TypeError` instead: that
crash is modelled explicitly by the `.typeError` branch of `parse`, so the
`.undefined` this total function returns for a `.null` receiver never
reaches a `parse` outcome. -/
def JSValue.getField (v : JSValue) (key : String) : JSValue :=
  match v with
  | .obj fields =>
    match fields.lookup key with
    | some x => x
    | none => .undefined
  | _ => .undefined

/-- `Array.isArray(v) && v.every(p => typeof p === "string")`. -/
def isArrayOfStrings : JSValue → Bool
  | .arr xs => xs.all JSValue.typeofIsString
  | _ => false

/-- `Array.isArray(v) && v.every(arr => Array.isArray(arr) && arr.every(p => typeof p === "string"))`. -/
def isArrayOfArraysOfStrings : JSValue → Bool
  | .arr groups => groups.all isArrayOfStrings
  | _ => false

/-- The strings in an array value (total; used only on values that already
passed `isArrayOfStrings`, where it is the identity on the entries). -/
def JSValue.toStringList : JSValue → List String
  | .arr xs => xs.filterMap (fun v => match v with | .str s => some s | _ => none)
  | _ => []

/-- The nested string lists of an array-of-arrays value (used only on values
that already passed `isArrayOfArraysOfStrings`). -/
def JSValue.toStringLists : JSValue → List (List String)
  | .arr gs => gs.map JSValue.toStringList
  | _ => []

/-- A run of `n` spaces. -/
def spacesN (n : Nat) : String := String.mk (List.replicate n ' ')

/-- One character of a JSON-quoted string. -/
def jsonEscapeChar (c : Char) : String :=
  if c = '"' then "\\\""
  else if c = '\\' then "\\\\"
  else if c = '\n' then "\\n"
  else if c = '\t' then "\\t"
  else if c = '\r' then "\\r"
  else String.singleton c

/-- A JSON string literal for `s`. -/
def jsonQuote (s : String) : String :=
  "\"" ++ String.join (s.data.map jsonEscapeChar) ++ "\""

mutual

/-- Models `JSON.stringify(v, null, 2)` rendered at indentation `ind`
(top-level `undefined` prints as the template-literal interpolation
`"undefined"` does). -/
def jsonStringifyAt : JSValue → Nat → String
  | .undefined, _ => "undefined"
  | .null, _ => "null"
  | .bool b, _ => if b then "true" else "false"
  | .num n, _ => toString n
  | .str s, _ => jsonQuote s
  | .arr [], _ => "[]"
  | .arr (x :: xs), ind =>
    "[\n" ++ jsonStringifyItems (x :: xs) (ind + 2) ++ "\n" ++ spacesN ind ++ "]"
  | .obj [], _ => "\x7b\x7d"
  | .obj (f :: fs), ind =>
    "\x7b\n" ++ jsonStringifyFields (f :: fs) (ind + 2) ++ "\n" ++ spacesN ind ++ "\x7d"

/-- The comma-and-newline separated items of a stringified array. -/
def jsonStringifyItems : List JSValue → Nat → String
  | [], _ => ""
  | [x], ind => spacesN ind ++ jsonStringifyAt x ind
  | x :: y :: xs, ind =>
    spacesN ind ++ jsonStringifyAt x ind ++ ",\n" ++ jsonStringifyItems (y :: xs) ind

/-- The comma-and-newline separated entries of a stringified object. -/
def jsonStringifyFields : List (String × JSValue) → Nat → String
  | [], _ => ""
  | [(k, v)], ind => spacesN ind ++ jsonQuote k ++ ": " ++ jsonStringifyAt v ind
  | (k, v) :: f :: fs, ind =>
    spacesN ind ++ jsonQuote k ++ ": " ++ jsonStringifyAt v ind ++ ",\n" ++
      jsonStringifyFields (f :: fs) ind

end

/-- `JSON.stringify(v, null, 2)`. -/
def jsonStringify (v : JSValue) : String := jsonStringifyAt v 0

/-- The `name`/`version` part of a package's `package.json`. -/
structure PackageJSON where
  name : String
  version : String
deriving Repr, DecidableEq

/-- One workspace package. -/
structure Package where
  dir : String
  packageJson : PackageJSON
deriving Repr, DecidableEq

/-- The workspace record from `@manypkg/get-packages`; `parse` only reads
`packages[].packageJson.name`. -/
structure Packages where
  root : Package
  tool : String
  packages : List Package
deriving Repr, DecidableEq

/-- The dependents graph built by `@changesets/get-dependents-graph`
(a `Map` from package name to the list of packages depending on it),
modelled as an association list. -/
abbrev DependentsGraph := List (String × List String)

/-- `dependentsGraph.get(name) || []`. -/
def graphGet (g : DependentsGraph) (name : String) : List String :=
  match List.lookup name g with
  | some deps => deps
  | none => []

/-- The user-authored configuration document (`WrittenConfig`): every
recognised field as an untyped runtime value, `.undefined` when absent. -/
structure WrittenConfig where
  changelog : JSValue := .undefined
  access : JSValue := .undefined
  commit : JSValue := .undefined
  baseBranch : JSValue := .undefined
  linked : JSValue := .undefined
  updateInternalDependencies : JSValue := .undefined
  ignore : JSValue := .undefined
  ___experimentalUnsafeOptions_WILL_CHANGE_IN_PATCH : JSValue := .undefined
deriving Repr

/-- The resolved experimental options of a `Config`. -/
structure ExperimentalOptions where
  onlyUpdatePeerDependentsWhenOutOfRange : JSValue
  useCalculatedVersionForSnapshots : JSValue
deriving Repr

/-- The fully resolved configuration (`Config`).  Fields keep their runtime
values, mirroring the untyped pass-through of the source. -/
structure Config where
  changelog : JSValue
  access : JSValue
  commit : JSValue
  linked : JSValue
  baseBranch : JSValue
  updateInternalDependencies : JSValue
  ignore : JSValue
  ___experimentalUnsafeOptions_WILL_CHANGE_IN_PATCH : ExperimentalOptions
deriving Repr

/-- `defaultWrittenConfig` (lines 10-19; the `$schema` field is not read by
`parse` and is omitted from the model). -/
def defaultWrittenConfig : WrittenConfig where
  changelog := .str "@changesets/cli/changelog"
  commit := .bool false
  linked := .arr []
  access := .str "restricted"
  baseBranch := .str "master"
  updateInternalDependencies := .str "patch"
  ignore := .arr []

/-- `getNormalisedChangelogOption` (lines 21-31). -/
def getNormalisedChangelogOption (thing : JSValue) : JSValue :=
  if thing.isFalseLiteral then .bool false
  else if thing.typeofIsString then .arr [thing, .null]
  else thing

/-! ### The validation messages pushed by `parse` -/

/-- The message pushed for a malformed `changelog` option (lines 50-56). -/
def changelogMessage (v : JSValue) : String :=
  "The `changelog` option is set as " ++ jsonStringify v ++
    " when the only valid values are undefined, a module path(e.g. \"@changesets/cli/changelog\" or \"./some-module\") or a tuple with a module path and config for the changelog generator(e.g. [\"@changesets/cli/changelog\", \x7b someOption: true \x7d])"

/-- The warning emitted for the legacy `access: "private"` value (lines 62-64). -/
def accessLegacyWarning : String :=
  "The `access` option is set as \"private\", but this is actually not a valid value - the correct form is \"restricted\"."

/-- The message pushed for an invalid `access` option (lines 71-77). -/
def accessMessage (v : JSValue) : String :=
  "The `access` option is set as " ++ jsonStringify v ++
    " when the only valid values are undefined, \"public\" or \"restricted\""

/-- The message pushed for a non-boolean `commit` option (lines 81-87). -/
def commitMessage (v : JSValue) : String :=
  "The `commit` option is set as " ++ jsonStringify v ++
    " when the only valid values are undefined or a boolean"

/-- The message pushed for a non-string `baseBranch` option (lines 90-96). -/
def baseBranchMessage (v : JSValue) : String :=
  "The `baseBranch` option is set as " ++ jsonStringify v ++
    " but the `baseBranch` option can only be set as a string"

/-- The message pushed for a malformed `linked` option (lines 109-115). -/
def linkedShapeMessage (v : JSValue) : String :=
  "The `linked` option is set as " ++ jsonStringify v ++
    " when the only valid values are undefined or an array of arrays of package names"

/-- The message pushed for a linked package missing from the project
(lines 125-127). -/
def linkedNotFoundMessage (name : String) : String :=
  "The package \"" ++ name ++
    "\" is specified in the `linked` option but it is not found in the project. You may have misspelled the package name."

/-- The message pushed for a package in several linked sets (lines 137-139). -/
def linkedDuplicateMessage (name : String) : String :=
  "The package \"" ++ name ++
    "\" is in multiple sets of linked packages. Packages can only be in a single set of linked packages."

/-- The message pushed for an invalid `updateInternalDependencies` option
(lines 148-154). -/
def updateInternalDependenciesMessage (v : JSValue) : String :=
  "The `updateInternalDependencies` option is set as " ++ jsonStringify v ++
    " but can only be 'patch' or 'minor'"

/-- The message pushed for a malformed `ignore` option (lines 163-169). -/
def ignoreShapeMessage (v : JSValue) : String :=
  "The `ignore` option is set as " ++ jsonStringify v ++
    " when the only valid values are undefined or an array of package names"

/-- The message pushed for an ignored package missing from the project
(lines 176-178). -/
def ignoreNotFoundMessage (name : String) : String :=
  "The package \"" ++ name ++
    "\" is specified in the `ignore` option but it is not found in the project. You may have misspelled the package name."

/-- The message pushed for a dependent of an ignored package that is not
itself ignored (lines 188-190). -/
def ignoreDependentMessage (dependent ignoredPackage : String) : String :=
  "The package \"" ++ dependent ++ "\" depends on the ignored package \"" ++
    ignoredPackage ++ "\", but \"" ++ dependent ++
    "\" is not being ignored. Please add \"" ++ dependent ++ "\" to the `ignore` option."

/-- The message pushed for a non-boolean experimental flag
(lines 206-212 and 218-224). -/
def experimentalFlagMessage (flagName : String) (v : JSValue) : String :=
  "The `" ++ flagName ++ "` option is set as " ++ jsonStringify v ++
    " when the only valid values are undefined or a boolean"

/-- The banner line prefixed to the aggregated `ValidationError` payload
(line 229). -/
def validationBanner : String :=
  "Some errors occurred when validating the changesets config:\n"

/-! ### The individual checks of `parse`, threading the shared message list -/

/-- The guard of the `changelog` check (lines 40-49): defined, not `false`,
not a string, and not a 2-element array with a string head. -/
def changelogInvalid (v : JSValue) : Bool :=
  !v.isUndefined && !v.isFalseLiteral && !v.typeofIsString &&
    !(v.isArray &&
      (match v with
       | .arr xs => xs.length == 2 && (xs.headD .undefined).typeofIsString
       | _ => false))

/-- `normalizedAccess` after the legacy rewrite of `"private"` (lines 59-65). -/
def normalizedAccess (json : WrittenConfig) : JSValue :=
  if json.access.strEq "private" then .str "restricted" else json.access

/-- The names of the workspace packages,
`packages.packages.map(({ packageJson }) => packageJson.name)` (lines 117-119
and 171-173). -/
def pkgNamesOf (packages : Packages) : List String :=
  packages.packages.map (fun p => p.packageJson.name)

/-- The inner `for (let linkedPkgName of linkedGroup)` loop (lines 123-133),
threading the `foundPkgNames` set, the `duplicatedPkgNames` set (both as
insertion-ordered duplicate-free lists) and the shared message list. -/
def linkedGroupLoop (pkgNames : List String) :
    List String → List String → List String → List String →
    List String × List String × List String
  | [], found, dup, msgs => (found, dup, msgs)
  | name :: rest, found, dup, msgs =>
    let msgs := if pkgNames.contains name then msgs
      else msgs ++ [linkedNotFoundMessage name]
    let dup := if found.contains name && !dup.contains name then dup ++ [name] else dup
    let found := if found.contains name then found else found ++ [name]
    linkedGroupLoop pkgNames rest found dup msgs

/-- The outer `for (let linkedGroup of json.linked)` loop (lines 122-134). -/
def linkedGroupsLoop (pkgNames : List String) :
    List (List String) → List String → List String → List String →
    List String × List String × List String
  | [], found, dup, msgs => (found, dup, msgs)
  | g :: gs, found, dup, msgs =>
    let r := linkedGroupLoop pkgNames g found dup msgs
    linkedGroupsLoop pkgNames gs r.1 r.2.1 r.2.2

/-- The whole `linked` check (lines 98-143), appending to `msgs`. -/
def linkedCheckFrom (pkgNames : List String) (linked : JSValue)
    (msgs : List String) : List String :=
  if !linked.isUndefined then
    if !isArrayOfArraysOfStrings linked then msgs ++ [linkedShapeMessage linked]
    else
      let r := linkedGroupsLoop pkgNames linked.toStringLists [] [] msgs
      if r.2.1.length != 0 then r.2.2 ++ r.2.1.map linkedDuplicateMessage else r.2.2
  else msgs

/-- The `for (let pkgName of json.ignore)` not-found loop (lines 174-180). -/
def ignoreNotFoundLoop (pkgNames : List String) :
    List String → List String → List String
  | [], msgs => msgs
  | p :: ps, msgs =>
    let msgs := if pkgNames.contains p then msgs
      else msgs ++ [ignoreNotFoundMessage p]
    ignoreNotFoundLoop pkgNames ps msgs

/-- The inner `for (const dependent of dependents)` loop (lines 186-192). -/
def ignoreDependentsInnerLoop (ignoreList : List String) (ignoredPackage : String) :
    List String → List String → List String
  | [], msgs => msgs
  | d :: ds, msgs =>
    let msgs := if ignoreList.contains d then msgs
      else msgs ++ [ignoreDependentMessage d ignoredPackage]
    ignoreDependentsInnerLoop ignoreList ignoredPackage ds msgs

/-- The outer `for (const ignoredPackage of json.ignore)` loop (lines 184-193). -/
def ignoreDependentsLoop (dependentsGraph : DependentsGraph) (ignoreList : List String) :
    List String → List String → List String
  | [], msgs => msgs
  | ip :: ips, msgs =>
    let msgs := ignoreDependentsInnerLoop ignoreList ip (graphGet dependentsGraph ip) msgs
    ignoreDependentsLoop dependentsGraph ignoreList ips msgs

/-- The whole `if (json.ignore)` check (lines 156-195), appending to `msgs`;
the dependents-graph builder is only invoked in the well-shaped branch
(line 183). -/
def ignoreCheckFrom (pkgNames : List String) (packages : Packages)
    (getDependentsGraph : Packages → DependentsGraph) (ignore : JSValue)
    (msgs : List String) : List String :=
  if ignore.truthy then
    if !isArrayOfStrings ignore then msgs ++ [ignoreShapeMessage ignore]
    else
      let ignoreList := ignore.toStringList
      let msgs := ignoreNotFoundLoop pkgNames ignoreList msgs
      let dependentsGraph := getDependentsGraph packages
      ignoreDependentsLoop dependentsGraph ignoreList ignoreList msgs
  else msgs

/-- The experimental-options check (lines 197-226), appending to `msgs`.
This models only the content of the shared message array: for a `.null`
field the source crashes at the destructuring (line 198) having appended
nothing, and this function likewise appends nothing there; the crash
itself is the `.typeError` outcome of `parse`. -/
def experimentalCheckFrom (json : WrittenConfig) (msgs : List String) : List String :=
  if !json.___experimentalUnsafeOptions_WILL_CHANGE_IN_PATCH.isUndefined then
    let onlyUpdatePeerDependentsWhenOutOfRange :=
      json.___experimentalUnsafeOptions_WILL_CHANGE_IN_PATCH.getField
        "onlyUpdatePeerDependentsWhenOutOfRange"
    let useCalculatedVersionForSnapshots :=
      json.___experimentalUnsafeOptions_WILL_CHANGE_IN_PATCH.getField
        "useCalculatedVersionForSnapshots"
    let msgs := if !onlyUpdatePeerDependentsWhenOutOfRange.isUndefined &&
        !onlyUpdatePeerDependentsWhenOutOfRange.typeofIsBoolean then
      msgs ++ [experimentalFlagMessage "onlyUpdatePeerDependentsWhenOutOfRange"
        onlyUpdatePeerDependentsWhenOutOfRange]
      else msgs
    let msgs := if !useCalculatedVersionForSnapshots.isUndefined &&
        !useCalculatedVersionForSnapshots.typeofIsBoolean then
      msgs ++ [experimentalFlagMessage "useCalculatedVersionForSnapshots"
        useCalculatedVersionForSnapshots]
      else msgs
    msgs
  else msgs

/-- The full message accumulation of `parse` (lines 39-226): every check runs
in source order on the shared `messages` list. -/
def parseMessages (json : WrittenConfig) (packages : Packages)
    (getDependentsGraph : Packages → DependentsGraph) : List String :=
  let messages : List String := []
  let messages := if changelogInvalid json.changelog then
    messages ++ [changelogMessage json.changelog] else messages
  let messages :=
    let na := normalizedAccess json
    if !na.isUndefined && !na.strEq "restricted" && !na.strEq "public" then
      messages ++ [accessMessage na]
    else messages
  let messages := if !json.commit.isUndefined && !json.commit.typeofIsBoolean then
    messages ++ [commitMessage json.commit] else messages
  let messages := if !json.baseBranch.isUndefined && !json.baseBranch.typeofIsString then
    messages ++ [baseBranchMessage json.baseBranch] else messages
  let messages := linkedCheckFrom (pkgNamesOf packages) json.linked messages
  let messages := if !json.updateInternalDependencies.isUndefined &&
      !(json.updateInternalDependencies.strEq "patch" ||
        json.updateInternalDependencies.strEq "minor") then
    messages ++ [updateInternalDependenciesMessage json.updateInternalDependencies]
    else messages
  let messages := ignoreCheckFrom (pkgNamesOf packages) packages getDependentsGraph
    json.ignore messages
  experimentalCheckFrom json messages

/-- The assembly of the resolved `Config` (lines 234-279), merging user
values over `defaultWrittenConfig`. -/
def assembleConfig (json : WrittenConfig) : Config where
  changelog := getNormalisedChangelogOption
    (if json.changelog.isUndefined then defaultWrittenConfig.changelog
     else json.changelog)
  access :=
    if (normalizedAccess json).isUndefined then defaultWrittenConfig.access
    else normalizedAccess json
  commit :=
    if json.commit.isUndefined then defaultWrittenConfig.commit else json.commit
  linked :=
    if json.linked.isUndefined then defaultWrittenConfig.linked else json.linked
  baseBranch :=
    if json.baseBranch.isUndefined then defaultWrittenConfig.baseBranch
    else json.baseBranch
  updateInternalDependencies :=
    if json.updateInternalDependencies.isUndefined then
      defaultWrittenConfig.updateInternalDependencies
    else json.updateInternalDependencies
  ignore :=
    if json.ignore.isUndefined then defaultWrittenConfig.ignore else json.ignore
  ___experimentalUnsafeOptions_WILL_CHANGE_IN_PATCH := {
    onlyUpdatePeerDependentsWhenOutOfRange :=
      if json.___experimentalUnsafeOptions_WILL_CHANGE_IN_PATCH.isUndefined ||
          (json.___experimentalUnsafeOptions_WILL_CHANGE_IN_PATCH.getField
            "onlyUpdatePeerDependentsWhenOutOfRange").isUndefined then
        .bool false
      else
        json.___experimentalUnsafeOptions_WILL_CHANGE_IN_PATCH.getField
          "onlyUpdatePeerDependentsWhenOutOfRange"
    useCalculatedVersionForSnapshots :=
      if json.___experimentalUnsafeOptions_WILL_CHANGE_IN_PATCH.isUndefined ||
          (json.___experimentalUnsafeOptions_WILL_CHANGE_IN_PATCH.getField
            "useCalculatedVersionForSnapshots").isUndefined then
        .bool false
      else
        json.___experimentalUnsafeOptions_WILL_CHANGE_IN_PATCH.getField
          "useCalculatedVersionForSnapshots" }

/-- The ways one `parse` call can end: the resolved `Config`, the
aggregated `ValidationError` thrown at lines 228-231, or the `TypeError`
raised by the destructuring at lines 198-201 when the experimental-options
field is `null` (the only defined value the `!== undefined` guard at line
197 admits that JS cannot destructure). -/
inductive ParseOutcome where
  | ok (config : Config)
  | validationError (message : String)
  | typeError
deriving Repr

/-- The outcome of one `parse` call: the warnings emitted through the
logging collaborator, and how the call ended. -/
structure ParseResult where
  warnings : List String
  result : ParseOutcome

/-- `parse` (lines 38-280).  The external dependents-graph builder is the
explicit argument `getDependentsGraph`.  A `null` experimental-options
field crashes the destructuring at line 198 before the `messages.length`
gate at line 227 is reached, so that case is decided first; the message
list is unaffected by the crash point, since the checks before line 197
have already run and the experimental check appends nothing for `null`. -/
def parse (json : WrittenConfig) (packages : Packages)
    (getDependentsGraph : Packages → DependentsGraph) : ParseResult :=
  let warnings := if json.access.strEq "private" then [accessLegacyWarning] else []
  let messages := parseMessages json packages getDependentsGraph
  if json.___experimentalUnsafeOptions_WILL_CHANGE_IN_PATCH.isNull then
    { warnings := warnings
      result := .typeError }
  else if messages.length != 0 then
    { warnings := warnings
      result := .validationError (validationBanner ++ String.intercalate "\n" messages) }
  else
    { warnings := warnings
      result := .ok (assembleConfig json) }

/-- The placeholder package used to compute `defaultConfig` (lines 282-288). -/
def fakePackage : Package where
  dir := ""
  packageJson := { name := "", version := "" }

/-- The workspace record passed when computing `defaultConfig` (lines 290-294). -/
def fakePackages : Packages where
  root := fakePackage
  tool := "root"
  packages := [fakePackage]

/-- `defaultConfig` (lines 290-294): the result of parsing the default
template against the placeholder workspace.  The external graph builder's
value is irrelevant here (the default `ignore` list is empty), so the
trivial builder stands in for it; the `ParseOutcome` layer records that the
source would throw were the default template invalid. -/
def defaultConfig : ParseOutcome :=
  (parse defaultWrittenConfig fakePackages (fun _ => [])).result

/-! ### The per-field checks in isolation

Each of the following restates one check of `parse` starting from an empty
message list; the decomposition lemma below proves that `parseMessages` is
exactly their concatenation in field-declaration order. -/

/-- The messages contributed by the `changelog` check alone. -/
def changelogCheck (json : WrittenConfig) : List String :=
  if changelogInvalid json.changelog then [changelogMessage json.changelog] else []

/-- The messages contributed by the `access` check alone. -/
def accessCheck (json : WrittenConfig) : List String :=
  let na := normalizedAccess json
  if !na.isUndefined && !na.strEq "restricted" && !na.strEq "public" then
    [accessMessage na]
  else []

/-- The messages contributed by the `commit` check alone. -/
def commitCheck (json : WrittenConfig) : List String :=
  if !json.commit.isUndefined && !json.commit.typeofIsBoolean then
    [commitMessage json.commit]
  else []

/-- The messages contributed by the `baseBranch` check alone. -/
def baseBranchCheck (json : WrittenConfig) : List String :=
  if !json.baseBranch.isUndefined && !json.baseBranch.typeofIsString then
    [baseBranchMessage json.baseBranch]
  else []

/-- The messages contributed by the `linked` check alone. -/
def linkedCheck (json : WrittenConfig) (packages : Packages) : List String :=
  linkedCheckFrom (pkgNamesOf packages) json.linked []

/-- The messages contributed by the `updateInternalDependencies` check alone. -/
def updateInternalDependenciesCheck (json : WrittenConfig) : List String :=
  if !json.updateInternalDependencies.isUndefined &&
      !(json.updateInternalDependencies.strEq "patch" ||
        json.updateInternalDependencies.strEq "minor") then
    [updateInternalDependenciesMessage json.updateInternalDependencies]
  else []

/-- The messages contributed by the `ignore` check alone. -/
def ignoreCheck (json : WrittenConfig) (packages : Packages)
    (getDependentsGraph : Packages → DependentsGraph) : List String :=
  ignoreCheckFrom (pkgNamesOf packages) packages getDependentsGraph json.ignore []

/-- The messages contributed by the experimental-options check alone. -/
def experimentalCheck (json : WrittenConfig) : List String :=
  experimentalCheckFrom json []

/-! ### Append-homomorphism lemmas for the threaded message lists -/

theorem append_ite_list (c : Bool) (m x : List String) :
    (if c then m ++ x else m) = m ++ (if c then x else []) := by
  cases c <;> simp

theorem linkedGroupLoop_msgs (pkgNames : List String) (xs : List String) :
    ∀ found dup msgs,
      linkedGroupLoop pkgNames xs found dup msgs =
        ((linkedGroupLoop pkgNames xs found dup []).1,
         (linkedGroupLoop pkgNames xs found dup []).2.1,
         msgs ++ (linkedGroupLoop pkgNames xs found dup []).2.2) := by
  induction xs with
  | nil => intro f d m; simp [linkedGroupLoop]
  | cons name rest ih =>
    intro f d m
    simp only [linkedGroupLoop]
    by_cases hc : pkgNames.contains name = true
    · simp only [hc, if_true]
      rw [ih _ _ m]
    · simp only [hc, Bool.false_eq_true, if_false, List.nil_append]
      rw [ih _ _ (m ++ [linkedNotFoundMessage name]),
        ih _ _ [linkedNotFoundMessage name], List.append_assoc]

theorem linkedGroupLoop_append (pkgNames : List String) (xs ys : List String) :
    ∀ found dup msgs,
      linkedGroupLoop pkgNames (xs ++ ys) found dup msgs =
        linkedGroupLoop pkgNames ys (linkedGroupLoop pkgNames xs found dup msgs).1
          (linkedGroupLoop pkgNames xs found dup msgs).2.1
          (linkedGroupLoop pkgNames xs found dup msgs).2.2 := by
  induction xs with
  | nil => intro f d m; simp [linkedGroupLoop]
  | cons name rest ih =>
    intro f d m
    simp only [List.cons_append, linkedGroupLoop]
    exact ih _ _ _

theorem linkedGroupsLoop_eq_flatten (pkgNames : List String) (gs : List (List String)) :
    ∀ found dup msgs,
      linkedGroupsLoop pkgNames gs found dup msgs =
        linkedGroupLoop pkgNames gs.flatten found dup msgs := by
  induction gs with
  | nil => intro f d m; simp [linkedGroupsLoop, linkedGroupLoop]
  | cons g gs ih =>
    intro f d m
    simp only [linkedGroupsLoop, List.flatten_cons, linkedGroupLoop_append]
    exact ih _ _ _

theorem linkedCheckFrom_msgs (pkgNames : List String) (linked : JSValue)
    (msgs : List String) :
    linkedCheckFrom pkgNames linked msgs = msgs ++ linkedCheckFrom pkgNames linked [] := by
  simp only [linkedCheckFrom]
  by_cases h1 : linked.isUndefined = true
  · simp [h1]
  · simp only [h1, Bool.not_false, if_true, Bool.false_eq_true, if_false]
    by_cases h2 : isArrayOfArraysOfStrings linked = true
    · simp only [h2, Bool.not_true, Bool.false_eq_true, if_false]
      rw [linkedGroupsLoop_eq_flatten, linkedGroupsLoop_eq_flatten,
        linkedGroupLoop_msgs _ _ _ _ msgs]
      split <;> simp [List.append_assoc]
    · simp [h2]

theorem ignoreNotFoundLoop_msgs (pkgNames : List String) (ps : List String) :
    ∀ msgs, ignoreNotFoundLoop pkgNames ps msgs =
      msgs ++ ignoreNotFoundLoop pkgNames ps [] := by
  induction ps with
  | nil => intro m; simp [ignoreNotFoundLoop]
  | cons p ps ih =>
    intro m
    simp only [ignoreNotFoundLoop]
    by_cases hc : pkgNames.contains p = true
    · simp only [hc, if_true]
      exact ih m
    · simp only [hc, Bool.false_eq_true, if_false, List.nil_append]
      rw [ih (m ++ [ignoreNotFoundMessage p]), ih [ignoreNotFoundMessage p],
        List.append_assoc]

theorem ignoreDependentsInnerLoop_msgs (ignoreList : List String) (ip : String)
    (ds : List String) :
    ∀ msgs, ignoreDependentsInnerLoop ignoreList ip ds msgs =
      msgs ++ ignoreDependentsInnerLoop ignoreList ip ds [] := by
  induction ds with
  | nil => intro m; simp [ignoreDependentsInnerLoop]
  | cons d ds ih =>
    intro m
    simp only [ignoreDependentsInnerLoop]
    by_cases hc : ignoreList.contains d = true
    · simp only [hc, if_true]
      exact ih m
    · simp only [hc, Bool.false_eq_true, if_false, List.nil_append]
      rw [ih (m ++ [ignoreDependentMessage d ip]), ih [ignoreDependentMessage d ip],
        List.append_assoc]

theorem ignoreDependentsLoop_msgs (g : DependentsGraph) (ignoreList : List String)
    (ips : List String) :
    ∀ msgs, ignoreDependentsLoop g ignoreList ips msgs =
      msgs ++ ignoreDependentsLoop g ignoreList ips [] := by
  induction ips with
  | nil => intro m; simp [ignoreDependentsLoop]
  | cons ip ips ih =>
    intro m
    simp only [ignoreDependentsLoop]
    rw [ignoreDependentsInnerLoop_msgs _ _ _ m,
      ih (m ++ ignoreDependentsInnerLoop ignoreList ip (graphGet g ip) []),
      ih (ignoreDependentsInnerLoop ignoreList ip (graphGet g ip) []),
      List.append_assoc]

theorem ignoreCheckFrom_msgs (pkgNames : List String) (packages : Packages)
    (B : Packages → DependentsGraph) (ignore : JSValue) (msgs : List String) :
    ignoreCheckFrom pkgNames packages B ignore msgs =
      msgs ++ ignoreCheckFrom pkgNames packages B ignore [] := by
  simp only [ignoreCheckFrom]
  by_cases h1 : ignore.truthy = true
  · simp only [h1, if_true]
    by_cases h2 : isArrayOfStrings ignore = true
    · simp only [h2, Bool.not_true, Bool.false_eq_true, if_false]
      rw [ignoreNotFoundLoop_msgs _ _ msgs,
        ignoreDependentsLoop_msgs _ _ _ (msgs ++ ignoreNotFoundLoop pkgNames ignore.toStringList []),
        ignoreDependentsLoop_msgs _ _ _ (ignoreNotFoundLoop pkgNames ignore.toStringList []),
        List.append_assoc]
    · simp [h2]
  · simp [h1]

theorem experimentalCheckFrom_msgs (json : WrittenConfig) (msgs : List String) :
    experimentalCheckFrom json msgs = msgs ++ experimentalCheckFrom json [] := by
  simp only [experimentalCheckFrom]
  split
  · split <;> split <;> simp [List.append_assoc]
  · simp

/-- `parseMessages` is the concatenation of the eight independent per-field
checks, in field-declaration order: no check short-circuits another. -/
theorem parseMessages_decomposition (json : WrittenConfig) (packages : Packages)
    (B : Packages → DependentsGraph) :
    parseMessages json packages B =
      changelogCheck json ++ accessCheck json ++ commitCheck json ++
      baseBranchCheck json ++ linkedCheck json packages ++
      updateInternalDependenciesCheck json ++ ignoreCheck json packages B ++
      experimentalCheck json := by
  simp only [parseMessages]
  rw [experimentalCheckFrom_msgs, ignoreCheckFrom_msgs]
  rw [show ∀ m : List String,
      (if !json.updateInternalDependencies.isUndefined &&
          !(json.updateInternalDependencies.strEq "patch" ||
            json.updateInternalDependencies.strEq "minor") then
        m ++ [updateInternalDependenciesMessage json.updateInternalDependencies]
      else m) = m ++ updateInternalDependenciesCheck json from
    fun m => by rw [updateInternalDependenciesCheck, append_ite_list]]
  rw [linkedCheckFrom_msgs]
  rw [show ∀ m : List String,
      (if !json.baseBranch.isUndefined && !json.baseBranch.typeofIsString then
        m ++ [baseBranchMessage json.baseBranch] else m) = m ++ baseBranchCheck json from
    fun m => by rw [baseBranchCheck, append_ite_list]]
  rw [show ∀ m : List String,
      (if !json.commit.isUndefined && !json.commit.typeofIsBoolean then
        m ++ [commitMessage json.commit] else m) = m ++ commitCheck json from
    fun m => by rw [commitCheck, append_ite_list]]
  rw [show ∀ m : List String,
      (if !(normalizedAccess json).isUndefined &&
          !(normalizedAccess json).strEq "restricted" &&
          !(normalizedAccess json).strEq "public" then
        m ++ [accessMessage (normalizedAccess json)] else m) = m ++ accessCheck json from
    fun m => by rw [accessCheck, append_ite_list]]
  rw [show (if changelogInvalid json.changelog then
        ([] : List String) ++ [changelogMessage json.changelog] else []) =
      changelogCheck json from by rw [changelogCheck, append_ite_list]; simp]
  simp only [linkedCheck, ignoreCheck, experimentalCheck, List.append_assoc]

/-! ### Characterisations of the loops -/

theorem contains_iff {l : List String} {a : String} : l.contains a = true ↔ a ∈ l :=
  List.elem_iff

theorem ite_cond_true {α : Sort _} (a b : α) : (if true = true then a else b) = a := rfl

theorem ite_cond_false {α : Sort _} (a b : α) : (if false = true then a else b) = b := rfl

theorem ignoreDependentsInnerLoop_eq (ignoreList : List String) (ip : String)
    (ds : List String) :
    ignoreDependentsInnerLoop ignoreList ip ds [] =
      (ds.filter (fun d => !ignoreList.contains d)).map
        (fun d => ignoreDependentMessage d ip) := by
  induction ds with
  | nil => simp [ignoreDependentsInnerLoop]
  | cons d ds ih =>
    simp only [ignoreDependentsInnerLoop, List.filter_cons]
    cases hc : ignoreList.contains d with
    | true =>
      simp only [hc, ite_cond_true, Bool.not_true, Bool.false_eq_true, if_false]
      exact ih
    | false =>
      simp only [hc, ite_cond_false, Bool.not_false, ite_cond_true, List.nil_append,
        List.map_cons]
      rw [ignoreDependentsInnerLoop_msgs _ _ _ [ignoreDependentMessage d ip], ih]
      simp

theorem ignoreDependentsLoop_eq (g : DependentsGraph) (ignoreList : List String)
    (ips : List String) :
    ignoreDependentsLoop g ignoreList ips [] =
      ips.flatMap (fun ip =>
        ((graphGet g ip).filter (fun d => !ignoreList.contains d)).map
          (fun d => ignoreDependentMessage d ip)) := by
  induction ips with
  | nil => simp [ignoreDependentsLoop]
  | cons ip ips ih =>
    simp only [ignoreDependentsLoop, List.flatMap_cons]
    rw [ignoreDependentsLoop_msgs, ih, ignoreDependentsInnerLoop_eq]

theorem mem_ignoreDependentsLoop {g : DependentsGraph} {ignoreList ips : List String}
    {m : String} :
    m ∈ ignoreDependentsLoop g ignoreList ips [] ↔
      ∃ ip ∈ ips, ∃ d ∈ graphGet g ip, ignoreList.contains d = false ∧
        m = ignoreDependentMessage d ip := by
  rw [ignoreDependentsLoop_eq]
  simp only [List.mem_flatMap, List.mem_map, List.mem_filter, Bool.not_eq_true']
  constructor
  · rintro ⟨ip, hip, d, ⟨hd, hdc⟩, hm⟩
    exact ⟨ip, hip, d, hd, hdc, hm.symm⟩
  · rintro ⟨ip, hip, d, hd, hdc, hm⟩
    exact ⟨ip, hip, d, ⟨hd, hdc⟩, hm.symm⟩

theorem lookup_mem : ∀ {g : List (String × List String)} {k : String} {v : List String},
    List.lookup k g = some v → (k, v) ∈ g := by
  intro g
  induction g with
  | nil => intro k v h; simp [List.lookup] at h
  | cons p g ih =>
    intro k v h
    obtain ⟨k₂, v₂⟩ := p
    rw [List.lookup] at h
    by_cases hk : k == k₂
    · simp only [hk, if_true] at h
      cases h
      have : k = k₂ := by simpa using hk
      subst this
      exact List.mem_cons_self _ _
    · simp only [Bool.not_eq_true] at hk
      simp only [hk] at h
      exact List.mem_cons_of_mem _ (ih h)

theorem graphGet_mem {g : DependentsGraph} {ip d : String} (h : d ∈ graphGet g ip) :
    ∃ ds, (ip, ds) ∈ g ∧ d ∈ ds := by
  unfold graphGet at h
  cases hl : List.lookup ip g with
  | none => rw [hl] at h; simp at h
  | some ds => rw [hl] at h; exact ⟨ds, lookup_mem hl, h⟩

/-! ### The duplicate-tracking invariant of the `linked` loop -/

theorem linkedGroupLoop_dup_mem (pkgNames : List String) (xs : List String) :
    ∀ (found dup msgs : List String) (x : String),
      x ∈ (linkedGroupLoop pkgNames xs found dup msgs).2.1 ↔
        x ∈ dup ∨ (x ∈ found ∧ x ∈ xs) ∨ 2 ≤ xs.count x := by
  induction xs with
  | nil => intro f d m x; simp [linkedGroupLoop]
  | cons name rest ih =>
    intro f d m x
    simp only [linkedGroupLoop]
    rw [ih]
    have hrc : x ∈ rest ↔ 0 < rest.count x := List.count_pos_iff.symm
    cases hnf : f.contains name with
    | false =>
      have hnf2 : name ∉ f := fun hm => by
        rw [contains_iff.mpr hm] at hnf; exact Bool.noConfusion hnf
      simp only [hnf, Bool.false_and, Bool.false_eq_true, if_false]
      by_cases hxn : x = name
      · subst hxn
        rw [List.count_cons_self]
        constructor
        · rintro (h | ⟨-, hr⟩ | hcnt)
          · exact Or.inl h
          · have := hrc.mp hr
            right; right; omega
          · right; right; omega
        · rintro (h | ⟨hf, -⟩ | hcnt)
          · exact Or.inl h
          · exact absurd hf hnf2
          · by_cases hc2 : 2 ≤ rest.count x
            · exact Or.inr (Or.inr hc2)
            · have h0 : 0 < rest.count x := by omega
              exact Or.inr (Or.inl ⟨List.mem_append.mpr (Or.inr (by simp)), hrc.mpr h0⟩)
      · rw [List.count_cons_of_ne hxn]
        have h1 : x ∈ f ++ [name] ↔ x ∈ f := by simp [hxn]
        have h2 : x ∈ name :: rest ↔ x ∈ rest := by simp [List.mem_cons, hxn]
        rw [h1, h2]
    | true =>
      have hnf2 : name ∈ f := contains_iff.mp hnf
      simp only [hnf, Bool.true_and, eq_self_iff_true, if_true]
      cases hnd : d.contains name with
      | true =>
        have hnd2 : name ∈ d := contains_iff.mp hnd
        simp only [hnd, Bool.not_true, Bool.false_eq_true, if_false]
        by_cases hxn : x = name
        · subst hxn
          constructor
          · intro _; exact Or.inl hnd2
          · intro _; exact Or.inl hnd2
        · rw [List.count_cons_of_ne hxn]
          have h2 : x ∈ name :: rest ↔ x ∈ rest := by simp [List.mem_cons, hxn]
          rw [h2]
      | false =>
        have hnd2 : name ∉ d := fun hm => by
          rw [contains_iff.mpr hm] at hnd; exact Bool.noConfusion hnd
        simp only [hnd, Bool.not_false, eq_self_iff_true, if_true]
        by_cases hxn : x = name
        · subst hxn
          constructor
          · intro _
            exact Or.inr (Or.inl ⟨hnf2, List.mem_cons_self _ _⟩)
          · intro _
            exact Or.inl (List.mem_append.mpr (Or.inr (by simp)))
        · rw [List.count_cons_of_ne hxn]
          have h1 : x ∈ d ++ [name] ↔ x ∈ d := by simp [hxn]
          have h2 : x ∈ name :: rest ↔ x ∈ rest := by simp [List.mem_cons, hxn]
          rw [h1, h2]

theorem linkedGroupLoop_dup_nodup (pkgNames : List String) (xs : List String) :
    ∀ found dup msgs, dup.Nodup → (linkedGroupLoop pkgNames xs found dup msgs).2.1.Nodup := by
  induction xs with
  | nil => intro f d m h; simpa [linkedGroupLoop]
  | cons name rest ih =>
    intro f d m h
    simp only [linkedGroupLoop]
    apply ih
    cases hc : (f.contains name && !d.contains name) with
    | true =>
      have hnd2 : name ∉ d := by
        have h2 := (Bool.and_eq_true _ _).mp hc
        intro hm
        rw [contains_iff.mpr hm] at h2
        simp at h2
      simp only [hc, eq_self_iff_true, if_true]
      simp [List.nodup_append, h, hnd2]
    | false =>
      simp only [hc, Bool.false_eq_true, if_false]
      exact h

/-! ### String-shape lemmas for the quoted names inside messages -/

theorem quote_delim : ∀ {a b s t : List Char}, '"' ∉ a → '"' ∉ b →
    a ++ '"' :: s = b ++ '"' :: t → a = b ∧ s = t := by
  intro a
  induction a with
  | nil =>
    intro b s t _ hb h
    cases b with
    | nil => simpa using h
    | cons y b =>
      simp only [List.nil_append, List.cons_append, List.cons.injEq] at h
      obtain ⟨h1, h2⟩ := h
      subst h1
      exact absurd (List.mem_cons_self _ _) hb
  | cons x a iha =>
    intro b s t ha hb h
    cases b with
    | nil =>
      simp only [List.cons_append, List.nil_append, List.cons.injEq] at h
      obtain ⟨h1, h2⟩ := h
      subst h1
      exact absurd (List.mem_cons_self _ _) ha
    | cons y b =>
      simp only [List.cons_append, List.cons.injEq] at h
      obtain ⟨h1, h2⟩ := h
      subst h1
      have ha2 : '"' ∉ a := fun hm => ha (List.mem_cons_of_mem _ hm)
      have hb2 : '"' ∉ b := fun hm => hb (List.mem_cons_of_mem _ hm)
      obtain ⟨hab, hst⟩ := iha ha2 hb2 h2
      exact ⟨by rw [hab], hst⟩

theorem quoted_prefix_inj {p a b s t : String}
    (ha : '"' ∉ a.data) (hb : '"' ∉ b.data)
    (h : (p ++ a) ++ ("\"" ++ s) = (p ++ b) ++ ("\"" ++ t)) : a = b ∧ s = t := by
  have hd := congrArg String.data h
  simp only [String.data_append, List.append_assoc] at hd
  have h1 := List.append_cancel_left hd
  rw [List.singleton_append, List.singleton_append] at h1
  obtain ⟨hab, hst⟩ := quote_delim ha hb h1
  exact ⟨String.ext hab, String.ext hst⟩

/-- The dependent-not-ignored message re-associated so that the first quoted
name is followed by an explicit closing quote. -/
theorem ignoreDependentMessage_split (d i : String) :
    ignoreDependentMessage d i =
      ("The package \"" ++ d) ++
        ("\"" ++ (" depends on the ignored package \"" ++ (i ++ ("\", but \"" ++ (d ++
          ("\" is not being ignored. Please add \"" ++ (d ++
            "\" to the `ignore` option."))))))) := by
  apply String.ext
  simp only [ignoreDependentMessage, String.data_append, List.append_assoc]
  simp

theorem ignoreDependentMessage_inj_ignored {d i₁ i₂ : String}
    (h : ignoreDependentMessage d i₁ = ignoreDependentMessage d i₂) : i₁ = i₂ := by
  have hd := congrArg String.data h
  simp only [ignoreDependentMessage, String.data_append, List.append_assoc] at hd
  have h1 := List.append_cancel_left hd
  have h2 := List.append_cancel_left h1
  have h3 := List.append_cancel_left h2
  exact String.ext (List.append_cancel_right h3)

theorem ignoreDependentMessage_dep_eq {d i Q P : String}
    (hd : '"' ∉ d.data) (hQ : '"' ∉ Q.data)
    (h : ignoreDependentMessage d i = ignoreDependentMessage Q P) : d = Q := by
  rw [ignoreDependentMessage_split d i, ignoreDependentMessage_split Q P] at h
  exact (quoted_prefix_inj hd hQ h).1

theorem linkedDuplicateMessage_inj : Function.Injective linkedDuplicateMessage := by
  intro a b h
  have hd := congrArg String.data h
  simp only [linkedDuplicateMessage, String.data_append, List.append_assoc] at hd
  have h1 := List.append_cancel_left hd
  exact String.ext (List.append_cancel_right h1)

/-! ### Encodings of string lists as JS array values -/

theorem toStringList_encode (g : List String) :
    (JSValue.arr (g.map JSValue.str)).toStringList = g := by
  induction g with
  | nil => rfl
  | cons s g ih => simpa [JSValue.toStringList, List.filterMap_cons] using ih

theorem encode_toStringLists (groups : List (List String)) :
    (JSValue.arr (groups.map (fun g => JSValue.arr (g.map JSValue.str)))).toStringLists =
      groups := by
  simp only [JSValue.toStringLists, List.map_map]
  have h : JSValue.toStringList ∘ (fun g => JSValue.arr (List.map JSValue.str g)) = id := by
    funext g
    exact toStringList_encode g
  rw [h, List.map_id]

theorem encode_isArrayOfStrings (ig : List String) :
    isArrayOfStrings (.arr (ig.map JSValue.str)) = true := by
  simp only [isArrayOfStrings, List.all_eq_true]
  intro v hv
  simp only [List.mem_map] at hv
  obtain ⟨s, -, rfl⟩ := hv
  rfl

theorem encode_isArrayOfArraysOfStrings (groups : List (List String)) :
    isArrayOfArraysOfStrings
      (.arr (groups.map (fun g => JSValue.arr (g.map JSValue.str)))) = true := by
  simp only [isArrayOfArraysOfStrings, List.all_eq_true]
  intro v hv
  simp only [List.mem_map] at hv
  obtain ⟨g, -, rfl⟩ := hv
  exact encode_isArrayOfStrings g

/-! ### Counting duplicates across linked sets -/

theorem countP_contains_le_sum (n : String) (groups : List (List String)) :
    groups.countP (fun g => g.contains n) ≤ (groups.map (List.count n)).sum := by
  induction groups with
  | nil => simp
  | cons g gs ih =>
    rw [List.countP_cons, List.map_cons, List.sum_cons]
    cases hc : g.contains n with
    | true =>
      have h1 : 0 < g.count n := List.count_pos_iff.mpr (contains_iff.mp hc)
      simp only [hc, if_true]
      omega
    | false =>
      simp only [hc, Bool.false_eq_true, if_false]
      omega

theorem linkedGroupsLoop_dup_spec (pkgNames : List String) (groups : List (List String))
    (n : String) :
    (n ∈ (linkedGroupsLoop pkgNames groups [] [] []).2.1 ↔
      2 ≤ groups.flatten.count n) ∧
    (linkedGroupsLoop pkgNames groups [] [] []).2.1.Nodup := by
  rw [linkedGroupsLoop_eq_flatten]
  refine ⟨?_, linkedGroupLoop_dup_nodup _ _ _ _ _ List.nodup_nil⟩
  rw [linkedGroupLoop_dup_mem]
  simp

theorem linkedCheckFrom_dup_mem (pkgNames : List String) (groups : List (List String))
    (n : String) (h : 2 ≤ groups.flatten.count n) :
    linkedDuplicateMessage n ∈
      linkedCheckFrom pkgNames
        (.arr (groups.map (fun g => JSValue.arr (g.map JSValue.str)))) [] := by
  have hdup : n ∈ (linkedGroupsLoop pkgNames groups [] [] []).2.1 :=
    (linkedGroupsLoop_dup_spec pkgNames groups n).1.mpr h
  simp only [linkedCheckFrom]
  rw [show (JSValue.arr (groups.map (fun g =>
      JSValue.arr (g.map JSValue.str)))).isUndefined = false from rfl]
  rw [encode_isArrayOfArraysOfStrings groups, encode_toStringLists groups]
  simp only [Bool.not_false, Bool.not_true, ite_cond_true, Bool.false_eq_true, if_false]
  have hne : ((linkedGroupsLoop pkgNames groups [] [] []).2.1.length != 0) = true := by
    have h0 : (linkedGroupsLoop pkgNames groups [] [] []).2.1 ≠ [] :=
      List.ne_nil_of_mem hdup
    simpa [bne_iff_ne, List.length_eq_zero] using h0
  rw [hne, ite_cond_true]
  exact List.mem_append_right _ (List.mem_map_of_mem _ hdup)

/-! ### Facts about the outcome of `parse` -/

theorem parse_of_null_experimental {json : WrittenConfig} {packages : Packages}
    {B : Packages → DependentsGraph}
    (h : json.___experimentalUnsafeOptions_WILL_CHANGE_IN_PATCH.isNull = true) :
    parse json packages B =
      { warnings := if json.access.strEq "private" then [accessLegacyWarning] else []
        result := .typeError } := by
  simp only [parse, h, if_true]

theorem parse_of_messages_ne {json : WrittenConfig} {packages : Packages}
    {B : Packages → DependentsGraph}
    (hnull : json.___experimentalUnsafeOptions_WILL_CHANGE_IN_PATCH.isNull = false)
    (h : parseMessages json packages B ≠ []) :
    parse json packages B =
      { warnings := if json.access.strEq "private" then [accessLegacyWarning] else []
        result := .validationError (validationBanner ++
          String.intercalate "\n" (parseMessages json packages B)) } := by
  have hlen : ((parseMessages json packages B).length != 0) = true := by
    simpa [bne_iff_ne, List.length_eq_zero] using h
  simp only [parse, hnull, Bool.false_eq_true, if_false, hlen, if_true]

theorem parse_of_messages_eq_nil {json : WrittenConfig} {packages : Packages}
    {B : Packages → DependentsGraph}
    (hnull : json.___experimentalUnsafeOptions_WILL_CHANGE_IN_PATCH.isNull = false)
    (h : parseMessages json packages B = []) :
    parse json packages B =
      { warnings := if json.access.strEq "private" then [accessLegacyWarning] else []
        result := .ok (assembleConfig json) } := by
  simp only [parse, hnull, Bool.false_eq_true, if_false, h, List.length_nil,
    bne_self_eq_false, ite_cond_false]

theorem mem_parseMessages_of_mem_linked {json : WrittenConfig} {packages : Packages}
    {B : Packages → DependentsGraph} {m : String}
    (h : m ∈ linkedCheck json packages) : m ∈ parseMessages json packages B := by
  rw [parseMessages_decomposition]
  simp only [List.mem_append]
  tauto

theorem mem_parseMessages_of_mem_access {json : WrittenConfig} {packages : Packages}
    {B : Packages → DependentsGraph} {m : String}
    (h : m ∈ accessCheck json) : m ∈ parseMessages json packages B := by
  rw [parseMessages_decomposition]
  simp only [List.mem_append]
  tauto

theorem mem_parseMessages_of_mem_ignore {json : WrittenConfig} {packages : Packages}
    {B : Packages → DependentsGraph} {m : String}
    (h : m ∈ ignoreCheck json packages B) : m ∈ parseMessages json packages B := by
  rw [parseMessages_decomposition]
  simp only [List.mem_append]
  tauto

theorem parse_warnings_eq (json : WrittenConfig) (packages : Packages)
    (B : Packages → DependentsGraph) :
    (parse json packages B).warnings =
      (if json.access.strEq "private" then [accessLegacyWarning] else []) := by
  cases hnull : json.___experimentalUnsafeOptions_WILL_CHANGE_IN_PATCH.isNull with
  | true => rw [parse_of_null_experimental hnull]
  | false =>
    by_cases h : parseMessages json packages B = []
    · rw [parse_of_messages_eq_nil hnull h]
    · rw [parse_of_messages_ne hnull h]

theorem ignoreCheck_dependents_mem {json : WrittenConfig} {packages : Packages}
    {B : Packages → DependentsGraph} {ig : List String} {m : String}
    (hig : json.ignore = .arr (ig.map JSValue.str))
    (h : m ∈ ignoreDependentsLoop (B packages) ig ig []) :
    m ∈ ignoreCheck json packages B := by
  simp only [ignoreCheck, ignoreCheckFrom, hig]
  rw [show (JSValue.arr (ig.map JSValue.str)).truthy = true from rfl,
    encode_isArrayOfStrings ig, toStringList_encode ig]
  simp only [ite_cond_true, Bool.not_true, Bool.false_eq_true, if_false]
  rw [ignoreDependentsLoop_msgs]
  exact List.mem_append_right _ h

/-! ### The claims -/

/-- C1 counterexample: at `experimental = null` the source throws a
`TypeError` at the destructuring (lines 198-201) although the accumulated
message list is empty, so `parse` fails with neither a resolved `Config`
nor the aggregated `ValidationError` — refuting the claimed equivalence. -/
theorem parse_null_experimental_counterexample :
    parseMessages { ___experimentalUnsafeOptions_WILL_CHANGE_IN_PATCH := .null }
      fakePackages (fun _ => []) = [] ∧
    (parse { ___experimentalUnsafeOptions_WILL_CHANGE_IN_PATCH := .null }
      fakePackages (fun _ => [])).result = .typeError ∧
    (∀ c : Config,
      (parse { ___experimentalUnsafeOptions_WILL_CHANGE_IN_PATCH := .null }
        fakePackages (fun _ => [])).result ≠ .ok c) ∧
    (∀ e : String,
      (parse { ___experimentalUnsafeOptions_WILL_CHANGE_IN_PATCH := .null }
        fakePackages (fun _ => [])).result ≠ .validationError e) := by
  refine ⟨rfl, rfl, fun c hc => ?_, fun e he => ?_⟩
  · exact ParseOutcome.noConfusion hc
  · exact ParseOutcome.noConfusion he

/-- C1 (amended): when the experimental-options field is not `null`,
`parse` fails exactly when the accumulated message list is non-empty after
all checks have run, producing the single aggregated `ValidationError`
whose payload is the banner line followed by the newline-joined ordered
message list and returning no resolved `Config`, and returns the assembled
`Config` on an empty message list; when that field is `null`, `parse`
instead raises the destructuring `TypeError`, returning neither outcome
even though the message list may be empty. -/
theorem parse_failure_characterization (json : WrittenConfig) (packages : Packages)
    (B : Packages → DependentsGraph) :
    (json.___experimentalUnsafeOptions_WILL_CHANGE_IN_PATCH.isNull = false →
      (parseMessages json packages B = [] ∧
        (parse json packages B).result = .ok (assembleConfig json)) ∨
      (parseMessages json packages B ≠ [] ∧
        (parse json packages B).result = .validationError (validationBanner ++
          String.intercalate "\n" (parseMessages json packages B)) ∧
        ∀ c : Config, (parse json packages B).result ≠ .ok c)) ∧
    (json.___experimentalUnsafeOptions_WILL_CHANGE_IN_PATCH.isNull = true →
      (parse json packages B).result = .typeError ∧
      (∀ c : Config, (parse json packages B).result ≠ .ok c) ∧
      (∀ e : String, (parse json packages B).result ≠ .validationError e)) := by
  constructor
  · intro hnull
    by_cases h : parseMessages json packages B = []
    · left
      exact ⟨h, by rw [parse_of_messages_eq_nil hnull h]⟩
    · right
      refine ⟨h, by rw [parse_of_messages_ne hnull h], ?_⟩
      intro c hc
      rw [parse_of_messages_ne hnull h] at hc
      exact ParseOutcome.noConfusion hc
  · intro hnull
    rw [parse_of_null_experimental hnull]
    exact ⟨rfl, fun c hc => ParseOutcome.noConfusion hc,
      fun e he => ParseOutcome.noConfusion he⟩

/-- Witness for C1's amended theorem: the empty document takes the
non-null branch and succeeds; the `experimental = null` document takes the
`TypeError` branch. -/
theorem parse_failure_characterization_witness :
    ((parseMessages ({} : WrittenConfig) fakePackages (fun _ => []) = [] ∧
      (parse {} fakePackages (fun _ => [])).result =
        .ok (assembleConfig {})) ∨
      (parseMessages ({} : WrittenConfig) fakePackages (fun _ => []) ≠ [] ∧
        (parse {} fakePackages (fun _ => [])).result =
          .validationError (validationBanner ++ String.intercalate "\n"
            (parseMessages ({} : WrittenConfig) fakePackages (fun _ => []))) ∧
        ∀ c : Config, (parse {} fakePackages (fun _ => [])).result ≠ .ok c)) ∧
    (parse { ___experimentalUnsafeOptions_WILL_CHANGE_IN_PATCH := .null }
      fakePackages (fun _ => [])).result = .typeError := by
  refine ⟨(parse_failure_characterization {} fakePackages (fun _ => [])).1 rfl, ?_⟩
  exact ((parse_failure_characterization
    { ___experimentalUnsafeOptions_WILL_CHANGE_IN_PATCH := .null } fakePackages
    (fun _ => [])).2 rfl).1

/-- C2 counterexample: `ignore := false` is defined and is not an array of
strings, yet `parse` pushes no message at all and succeeds, refuting the
claim that every defined non-(array-of-strings) `ignore` value is reported. -/
theorem ignore_false_counterexample :
    ({ ignore := .bool false } : WrittenConfig).ignore ≠ .undefined ∧
    isArrayOfStrings ({ ignore := .bool false } : WrittenConfig).ignore = false ∧
    parseMessages { ignore := .bool false } fakePackages (fun _ => []) = [] ∧
    (parse { ignore := .bool false } fakePackages (fun _ => [])).result =
      .ok (assembleConfig { ignore := .bool false }) := by
  refine ⟨fun h => JSValue.noConfusion h, rfl, rfl, rfl⟩

/-- C2 (amended): for every input whose `ignore` field is truthy but not an
array of strings, `parse` reports the ignore shape message and fails —
never returning a resolved `Config`; when the experimental-options field is
not `null`, the failure is the aggregated `ValidationError` carrying the
message.  Defined falsy `ignore` values (`false`, `0`, `""`, `null`) are
skipped by the `if (json.ignore)` guard and produce no message. -/
theorem ignore_truthy_malformed_reported (json : WrittenConfig) (packages : Packages)
    (B : Packages → DependentsGraph)
    (h1 : json.ignore.truthy = true) (h2 : isArrayOfStrings json.ignore = false) :
    ignoreShapeMessage json.ignore ∈ parseMessages json packages B ∧
    (∀ c : Config, (parse json packages B).result ≠ .ok c) ∧
    (json.___experimentalUnsafeOptions_WILL_CHANGE_IN_PATCH.isNull = false →
      (parse json packages B).result = .validationError (validationBanner ++
        String.intercalate "\n" (parseMessages json packages B))) := by
  have hmem : ignoreShapeMessage json.ignore ∈ ignoreCheck json packages B := by
    simp only [ignoreCheck, ignoreCheckFrom, h1, h2, ite_cond_true, Bool.not_false]
    simp
  have hpm : ignoreShapeMessage json.ignore ∈ parseMessages json packages B :=
    mem_parseMessages_of_mem_ignore hmem
  refine ⟨hpm, ?_, ?_⟩
  · intro c hc
    cases hnull : json.___experimentalUnsafeOptions_WILL_CHANGE_IN_PATCH.isNull with
    | true =>
      rw [parse_of_null_experimental hnull] at hc
      exact ParseOutcome.noConfusion hc
    | false =>
      rw [parse_of_messages_ne hnull (List.ne_nil_of_mem hpm)] at hc
      exact ParseOutcome.noConfusion hc
  · intro hnull
    rw [parse_of_messages_ne hnull (List.ne_nil_of_mem hpm)]

/-- Witness for C2's amended theorem at the truthy non-array value `5`. -/
theorem ignore_truthy_malformed_reported_witness :
    ignoreShapeMessage (JSValue.num 5) ∈
      parseMessages { ignore := .num 5 } fakePackages (fun _ => []) ∧
    (parse { ignore := .num 5 } fakePackages (fun _ => [])).result =
      .validationError (validationBanner ++ String.intercalate "\n"
        (parseMessages { ignore := .num 5 } fakePackages (fun _ => []))) := by
  have h := ignore_truthy_malformed_reported { ignore := .num 5 } fakePackages
    (fun _ => []) (by decide) (by decide)
  exact ⟨h.1, h.2.2 rfl⟩

/-- C10 (implicit): a defined falsy `ignore` value short-circuits the whole
ignore check: no ignore message of any kind, the dependents-graph builder
cannot influence the outcome, and on success the resolved `ignore` field is
the falsy value verbatim rather than the default empty array. -/
theorem ignore_falsy_skips_validation (json : WrittenConfig) (packages : Packages)
    (B B₂ : Packages → DependentsGraph)
    (h1 : json.ignore.isUndefined = false) (h2 : json.ignore.truthy = false) :
    ignoreCheck json packages B = [] ∧
    parse json packages B = parse json packages B₂ ∧
    (assembleConfig json).ignore = json.ignore ∧
    (∀ c : Config, (parse json packages B).result = .ok c → c.ignore = json.ignore) := by
  have hck : ∀ B' : Packages → DependentsGraph, ignoreCheck json packages B' = [] := by
    intro B'
    simp only [ignoreCheck, ignoreCheckFrom, h2, Bool.false_eq_true, if_false]
  have hmsgs : parseMessages json packages B = parseMessages json packages B₂ := by
    rw [parseMessages_decomposition, parseMessages_decomposition, hck B, hck B₂]
  have hasm : (assembleConfig json).ignore = json.ignore := by
    simp only [assembleConfig, h1, Bool.false_eq_true, if_false]
  refine ⟨hck B, ?_, hasm, ?_⟩
  · cases hnull : json.___experimentalUnsafeOptions_WILL_CHANGE_IN_PATCH.isNull with
    | true => rw [parse_of_null_experimental hnull, parse_of_null_experimental hnull]
    | false =>
      by_cases h : parseMessages json packages B = []
      · rw [parse_of_messages_eq_nil hnull h,
          parse_of_messages_eq_nil hnull (hmsgs.symm.trans h)]
      · rw [parse_of_messages_ne hnull h,
          parse_of_messages_ne hnull (fun hh => h (hmsgs.trans hh)), hmsgs]
  · intro c hc
    cases hnull : json.___experimentalUnsafeOptions_WILL_CHANGE_IN_PATCH.isNull with
    | true =>
      rw [parse_of_null_experimental hnull] at hc
      exact absurd hc (fun hh => ParseOutcome.noConfusion hh)
    | false =>
      by_cases h : parseMessages json packages B = []
      · rw [parse_of_messages_eq_nil hnull h] at hc
        simp only [ParseOutcome.ok.injEq] at hc
        rw [← hc]
        exact hasm
      · rw [parse_of_messages_ne hnull h] at hc
        exact ParseOutcome.noConfusion hc

/-- Witness for C10 at `ignore := false` with two observably different
dependents-graph builders. -/
theorem ignore_falsy_skips_validation_witness :
    ignoreCheck { ignore := .bool false } fakePackages
      (fun _ => [("pkg-a", ["pkg-b"])]) = [] ∧
    parse { ignore := .bool false } fakePackages (fun _ => [("pkg-a", ["pkg-b"])]) =
      parse { ignore := .bool false } fakePackages (fun _ => []) ∧
    (assembleConfig { ignore := .bool false }).ignore = .bool false ∧
    (∀ c : Config,
      (parse { ignore := .bool false } fakePackages
        (fun _ => [("pkg-a", ["pkg-b"])])).result = .ok c →
      c.ignore = .bool false) :=
  ignore_falsy_skips_validation { ignore := .bool false } fakePackages
    (fun _ => [("pkg-a", ["pkg-b"])]) (fun _ => []) rfl rfl

/-- C6: parsing the all-fields-omitted document succeeds with exactly the
default template's resolved values (changelog normalised, both experimental
flags `false`), and the result coincides with the precomputed
`defaultConfig` constant. -/
theorem parse_empty_config_defaults (packages : Packages)
    (B : Packages → DependentsGraph) :
    (parse {} packages B).result = .ok
      { changelog := .arr [.str "@changesets/cli/changelog", .null]
        access := .str "restricted"
        commit := .bool false
        linked := .arr []
        baseBranch := .str "master"
        updateInternalDependencies := .str "patch"
        ignore := .arr []
        ___experimentalUnsafeOptions_WILL_CHANGE_IN_PATCH :=
          { onlyUpdatePeerDependentsWhenOutOfRange := .bool false
            useCalculatedVersionForSnapshots := .bool false } } ∧
    (parse {} packages B).result = defaultConfig := by
  constructor <;> rfl

/-- C7: the changelog normaliser maps `false` to `false`, any bare string
`s` to the tuple `[s, null]`, and passes a 2-element tuple through
unchanged; a document with changelog `"my-generator"` resolves to
`["my-generator", null]`. -/
theorem changelog_normalisation :
    getNormalisedChangelogOption (.bool false) = .bool false ∧
    (∀ s : String, getNormalisedChangelogOption (.str s) = .arr [.str s, .null]) ∧
    (∀ x y : JSValue, getNormalisedChangelogOption (.arr [x, y]) = .arr [x, y]) ∧
    (∀ (packages : Packages) (B : Packages → DependentsGraph),
      (parse { changelog := .str "my-generator" } packages B).result =
        .ok (assembleConfig { changelog := .str "my-generator" }) ∧
      (assembleConfig { changelog := .str "my-generator" }).changelog =
        .arr [.str "my-generator", .null]) := by
  refine ⟨rfl, fun s => rfl, fun x y => rfl, fun packages B => ⟨?_, rfl⟩⟩
  rfl

/-- C8: validation is exhaustive and ordered: the message list `parse`
accumulates is exactly the concatenation of the eight independent per-field
checks in field-declaration order, so no failing check prevents a later
check from contributing its messages. -/
theorem validation_exhaustive_ordered (json : WrittenConfig) (packages : Packages)
    (B : Packages → DependentsGraph) :
    parseMessages json packages B =
      changelogCheck json ++ accessCheck json ++ commitCheck json ++
      baseBranchCheck json ++ linkedCheck json packages ++
      updateInternalDependenciesCheck json ++ ignoreCheck json packages B ++
      experimentalCheck json :=
  parseMessages_decomposition json packages B

/-- C5: `access: "private"` is legacy-rewritten to `"restricted"`: exactly
one warning is emitted (regardless of whether other fields have errors,
since the warning list does not depend on the message list), the access
check itself adds no message, and on an otherwise clean document (no
validation message and a non-null experimental field, whose `null` value
crashes the later destructuring) `parse` succeeds with resolved access
`"restricted"`; any other string outside `"public"`/`"restricted"` never
yields a resolved `Config`, emits no warning, and — when the experimental
field is not `null` — fails with the aggregated error carrying the access
message. -/
theorem access_private_legacy_rewrite (json : WrittenConfig) (packages : Packages)
    (B : Packages → DependentsGraph) :
    (json.access = .str "private" →
      (parse json packages B).warnings = [accessLegacyWarning] ∧
      accessCheck json = [] ∧
      (parseMessages json packages B = [] →
        json.___experimentalUnsafeOptions_WILL_CHANGE_IN_PATCH.isNull = false →
        (parse json packages B).result = .ok (assembleConfig json) ∧
        (assembleConfig json).access = .str "restricted")) ∧
    (∀ s : String, json.access = .str s → s ≠ "private" → s ≠ "public" →
      s ≠ "restricted" →
      accessCheck json = [accessMessage (.str s)] ∧
      (parse json packages B).warnings = [] ∧
      (∀ c : Config, (parse json packages B).result ≠ .ok c) ∧
      (json.___experimentalUnsafeOptions_WILL_CHANGE_IN_PATCH.isNull = false →
        (parse json packages B).result = .validationError (validationBanner ++
          String.intercalate "\n" (parseMessages json packages B)))) := by
  constructor
  · intro hp
    have hna : normalizedAccess json = .str "restricted" := by
      simp only [normalizedAccess, hp]
      rfl
    refine ⟨?_, ?_, ?_⟩
    · rw [parse_warnings_eq, hp]
      rfl
    · simp only [accessCheck, hna]
      rfl
    · intro hm hnull
      rw [parse_of_messages_eq_nil hnull hm]
      refine ⟨rfl, ?_⟩
      simp only [assembleConfig, hna]
      rfl
  · intro s hs hnp hnpub hnr
    have hpriv : (JSValue.str s).strEq "private" = false := by
      simp only [JSValue.strEq]
      exact beq_eq_false_iff_ne.mpr hnp
    have hsne : json.access.strEq "private" = false := by
      rw [hs]
      exact hpriv
    have hna : normalizedAccess json = .str s := by
      simp only [normalizedAccess, hs, hpriv, Bool.false_eq_true, if_false]
    have hr : (JSValue.str s).strEq "restricted" = false := by
      simp only [JSValue.strEq]
      exact beq_eq_false_iff_ne.mpr hnr
    have hpu : (JSValue.str s).strEq "public" = false := by
      simp only [JSValue.strEq]
      exact beq_eq_false_iff_ne.mpr hnpub
    have hacc : accessCheck json = [accessMessage (.str s)] := by
      simp only [accessCheck, hna, hr, hpu,
        show (JSValue.str s).isUndefined = false from rfl,
        Bool.not_false, Bool.and_self, ite_cond_true, if_true]
    have hmem : accessMessage (.str s) ∈ parseMessages json packages B :=
      mem_parseMessages_of_mem_access (by rw [hacc]; exact List.mem_singleton.mpr rfl)
    refine ⟨hacc, ?_, ?_, ?_⟩
    · rw [parse_warnings_eq, hsne]
      rfl
    · intro c hc
      cases hnull : json.___experimentalUnsafeOptions_WILL_CHANGE_IN_PATCH.isNull with
      | true =>
        rw [parse_of_null_experimental hnull] at hc
        exact ParseOutcome.noConfusion hc
      | false =>
        rw [parse_of_messages_ne hnull (List.ne_nil_of_mem hmem)] at hc
        exact ParseOutcome.noConfusion hc
    · intro hnull
      rw [parse_of_messages_ne hnull (List.ne_nil_of_mem hmem)]

/-- Witness for C5: the `"private"` branch succeeds with access
`"restricted"` and one warning; the invalid string `"wat"` yields the
access message and no warning. -/
theorem access_private_legacy_rewrite_witness :
    ((parse { access := .str "private" } fakePackages (fun _ => [])).warnings =
        [accessLegacyWarning] ∧
      (parse { access := .str "private" } fakePackages (fun _ => [])).result =
        .ok (assembleConfig { access := .str "private" }) ∧
      (assembleConfig { access := .str "private" }).access = .str "restricted") ∧
    (accessCheck { access := .str "wat" } = [accessMessage (.str "wat")] ∧
      (parse { access := .str "wat" } fakePackages (fun _ => [])).warnings = []) := by
  have h1 := (access_private_legacy_rewrite { access := .str "private" } fakePackages
    (fun _ => [])).1 rfl
  have h2 := (access_private_legacy_rewrite { access := .str "wat" } fakePackages
    (fun _ => [])).2 "wat" rfl (by decide) (by decide) (by decide)
  have h3 := h1.2.2 rfl rfl
  exact ⟨⟨h1.1, h3.1, h3.2⟩, h2.1, h2.2.1⟩

/-- C3: for a well-shaped `ignore` list, the dependents-closure check
produces one message per (ignored package, missing dependent) iteration
pair: if `P` is ignored and the graph lists `Q` among `P`'s dependents with
`Q` not ignored, the message naming `Q` and `P` is pushed and `parse` never
returns a resolved `Config` (with a non-null experimental field the failure
is the aggregated error carrying that message); a
second ignored package `P₂ ≠ P` with the same missing dependent yields a
second, distinct message (no deduplication); and once `Q` is itself in the
ignore list, no message with `Q` in the missing-dependent slot is produced
(stated for quote-free package names, which make the message text
unambiguous). -/
theorem ignore_dependents_closure (json : WrittenConfig) (packages : Packages)
    (B : Packages → DependentsGraph) (ig : List String) (P Q : String)
    (hig : json.ignore = .arr (ig.map JSValue.str))
    (hP : P ∈ ig) (hQ : Q ∈ graphGet (B packages) P) :
    (Q ∉ ig →
      ignoreDependentMessage Q P ∈ parseMessages json packages B ∧
      (∀ c : Config, (parse json packages B).result ≠ .ok c) ∧
      (json.___experimentalUnsafeOptions_WILL_CHANGE_IN_PATCH.isNull = false →
        (parse json packages B).result = .validationError (validationBanner ++
          String.intercalate "\n" (parseMessages json packages B)))) ∧
    (∀ P₂, P₂ ∈ ig → P₂ ≠ P → Q ∈ graphGet (B packages) P₂ → Q ∉ ig →
      ignoreDependentMessage Q P ∈ ignoreDependentsLoop (B packages) ig ig [] ∧
      ignoreDependentMessage Q P₂ ∈ ignoreDependentsLoop (B packages) ig ig [] ∧
      ignoreDependentMessage Q P ≠ ignoreDependentMessage Q P₂) ∧
    (∀ ig₂ : List String, Q ∈ ig₂ → '"' ∉ Q.data →
      (∀ pr ∈ B packages, ∀ d ∈ pr.2, '"' ∉ d.data) →
      ignoreDependentMessage Q P ∉ ignoreDependentsLoop (B packages) ig₂ ig₂ []) := by
  have hproduce : ∀ P' Q', P' ∈ ig → Q' ∈ graphGet (B packages) P' → Q' ∉ ig →
      ignoreDependentMessage Q' P' ∈ ignoreDependentsLoop (B packages) ig ig [] := by
    intro P' Q' hP' hQ' hQn'
    refine mem_ignoreDependentsLoop.mpr ⟨P', hP', Q', hQ', ?_, rfl⟩
    exact Bool.eq_false_iff.mpr (fun hc => hQn' (contains_iff.mp hc))
  refine ⟨?_, ?_, ?_⟩
  · intro hQn
    have hmem : ignoreDependentMessage Q P ∈ parseMessages json packages B :=
      mem_parseMessages_of_mem_ignore
        (ignoreCheck_dependents_mem hig (hproduce P Q hP hQ hQn))
    refine ⟨hmem, ?_, ?_⟩
    · intro c hc
      cases hnull : json.___experimentalUnsafeOptions_WILL_CHANGE_IN_PATCH.isNull with
      | true =>
        rw [parse_of_null_experimental hnull] at hc
        exact ParseOutcome.noConfusion hc
      | false =>
        rw [parse_of_messages_ne hnull (List.ne_nil_of_mem hmem)] at hc
        exact ParseOutcome.noConfusion hc
    · intro hnull
      rw [parse_of_messages_ne hnull (List.ne_nil_of_mem hmem)]
  · intro P₂ hP₂ hne hQ₂ hQn
    refine ⟨hproduce P Q hP hQ hQn, hproduce P₂ Q hP₂ hQ₂ hQn, ?_⟩
    intro he
    exact hne (ignoreDependentMessage_inj_ignored he).symm
  · intro ig₂ hQin hQqf hgqf hmem
    obtain ⟨ip, hip, d, hd, hdc, heq⟩ := mem_ignoreDependentsLoop.mp hmem
    obtain ⟨ds, hpair, hdds⟩ := graphGet_mem hd
    have hdqf : '"' ∉ d.data := hgqf (ip, ds) hpair d hdds
    have hdeq : d = Q := ignoreDependentMessage_dep_eq hdqf hQqf heq.symm
    rw [hdeq, contains_iff.mpr hQin] at hdc
    exact Bool.noConfusion hdc

/-- Witness for C3 in a two-package-ignore workspace where both `pkg-a` and
`pkg-c` have the missing dependent `pkg-b`. -/
theorem ignore_dependents_closure_witness :
    ignoreDependentMessage "pkg-b" "pkg-a" ∈
      parseMessages { ignore := .arr [.str "pkg-a", .str "pkg-c"] } fakePackages
        (fun _ => [("pkg-a", ["pkg-b"]), ("pkg-c", ["pkg-b"])]) ∧
    ignoreDependentMessage "pkg-b" "pkg-c" ∈
      ignoreDependentsLoop [("pkg-a", ["pkg-b"]), ("pkg-c", ["pkg-b"])]
        ["pkg-a", "pkg-c"] ["pkg-a", "pkg-c"] [] ∧
    ignoreDependentMessage "pkg-b" "pkg-a" ≠ ignoreDependentMessage "pkg-b" "pkg-c" ∧
    ignoreDependentMessage "pkg-b" "pkg-a" ∉
      ignoreDependentsLoop [("pkg-a", ["pkg-b"]), ("pkg-c", ["pkg-b"])]
        ["pkg-a", "pkg-b"] ["pkg-a", "pkg-b"] [] := by
  have h := ignore_dependents_closure
    { ignore := .arr [.str "pkg-a", .str "pkg-c"] } fakePackages
    (fun _ => [("pkg-a", ["pkg-b"]), ("pkg-c", ["pkg-b"])])
    ["pkg-a", "pkg-c"] "pkg-a" "pkg-b" rfl (by decide) (by decide)
  have h2 := h.2.1 "pkg-c" (by decide) (by decide) (by decide) (by decide)
  have h3 := h.2.2 ["pkg-a", "pkg-b"] (by decide) (by decide) (by decide)
  exact ⟨(h.1 (by decide)).1, h2.2.1, h2.2.2, h3⟩

/-- C4: a package name occurring in two or more linked sets is recorded once
in the duplicate set and reported with exactly one duplicate-membership
message, regardless of how many extra sets it appears in, and that message
reaches the final message list. -/
theorem linked_duplicate_reported_once (json : WrittenConfig) (packages : Packages)
    (B : Packages → DependentsGraph) (groups : List (List String)) (n : String)
    (hlinked : json.linked =
      .arr (groups.map (fun g => JSValue.arr (g.map JSValue.str))))
    (h2 : 2 ≤ groups.countP (fun g => g.contains n)) :
    (linkedGroupsLoop (pkgNamesOf packages) groups [] [] []).2.1.count n = 1 ∧
    ((linkedGroupsLoop (pkgNamesOf packages) groups [] [] []).2.1.map
      linkedDuplicateMessage).count (linkedDuplicateMessage n) = 1 ∧
    linkedDuplicateMessage n ∈ parseMessages json packages B := by
  have hflat : 2 ≤ groups.flatten.count n := by
    have ha := countP_contains_le_sum n groups
    have hb := List.count_flatten n groups
    omega
  obtain ⟨hmemiff, hnd⟩ := linkedGroupsLoop_dup_spec (pkgNamesOf packages) groups n
  have hmem : n ∈ (linkedGroupsLoop (pkgNamesOf packages) groups [] [] []).2.1 :=
    hmemiff.mpr hflat
  have hc1 := List.count_eq_one_of_mem hnd hmem
  refine ⟨hc1, ?_, ?_⟩
  · rw [List.count_map_of_injective _ _ linkedDuplicateMessage_inj]
    exact hc1
  · apply mem_parseMessages_of_mem_linked
    simp only [linkedCheck, hlinked]
    exact linkedCheckFrom_dup_mem _ _ _ hflat

/-- Witness for C4 at `linked = [["pkg-a","pkg-b"],["pkg-b","pkg-c"]]`:
exactly one message names `pkg-b`. -/
theorem linked_duplicate_reported_once_witness :
    (linkedGroupsLoop (pkgNamesOf fakePackages)
      [["pkg-a", "pkg-b"], ["pkg-b", "pkg-c"]] [] [] []).2.1.count "pkg-b" = 1 ∧
    ((linkedGroupsLoop (pkgNamesOf fakePackages)
      [["pkg-a", "pkg-b"], ["pkg-b", "pkg-c"]] [] [] []).2.1.map
        linkedDuplicateMessage).count (linkedDuplicateMessage "pkg-b") = 1 ∧
    linkedDuplicateMessage "pkg-b" ∈
      parseMessages
        { linked := .arr [.arr [.str "pkg-a", .str "pkg-b"],
            .arr [.str "pkg-b", .str "pkg-c"]] }
        fakePackages (fun _ => []) :=
  linked_duplicate_reported_once
    { linked := .arr [.arr [.str "pkg-a", .str "pkg-b"],
        .arr [.str "pkg-b", .str "pkg-c"]] }
    fakePackages (fun _ => []) [["pkg-a", "pkg-b"], ["pkg-b", "pkg-c"]] "pkg-b"
    rfl (by decide)

/-- C9 (implicit): a package name repeated inside one and the same linked
set is also recorded in the duplicate set (exactly once, so one
multiple-sets duplicate message), because duplicate detection tracks names
seen across all groups without distinguishing the group they came from. -/
theorem linked_duplicate_within_one_group (json : WrittenConfig) (packages : Packages)
    (B : Packages → DependentsGraph) (groups : List (List String)) (g : List String)
    (n : String)
    (hlinked : json.linked =
      .arr (groups.map (fun gr => JSValue.arr (gr.map JSValue.str))))
    (hg : g ∈ groups) (hcnt : 2 ≤ g.count n) :
    (linkedGroupsLoop (pkgNamesOf packages) groups [] [] []).2.1.count n = 1 ∧
    linkedDuplicateMessage n ∈ parseMessages json packages B := by
  have hflat : 2 ≤ groups.flatten.count n := by
    have hsum : g.count n ≤ (groups.map (List.count n)).sum :=
      List.single_le_sum (fun x _ => Nat.zero_le x) _ (List.mem_map_of_mem _ hg)
    have hb := List.count_flatten n groups
    omega
  obtain ⟨hmemiff, hnd⟩ := linkedGroupsLoop_dup_spec (pkgNamesOf packages) groups n
  have hmem : n ∈ (linkedGroupsLoop (pkgNamesOf packages) groups [] [] []).2.1 :=
    hmemiff.mpr hflat
  refine ⟨List.count_eq_one_of_mem hnd hmem, ?_⟩
  apply mem_parseMessages_of_mem_linked
  simp only [linkedCheck, hlinked]
  exact linkedCheckFrom_dup_mem _ _ _ hflat

/-- Witness for C9 at `linked = [["pkg-a","pkg-a"]]`. -/
theorem linked_duplicate_within_one_group_witness :
    (linkedGroupsLoop (pkgNamesOf fakePackages)
      [["pkg-a", "pkg-a"]] [] [] []).2.1.count "pkg-a" = 1 ∧
    linkedDuplicateMessage "pkg-a" ∈
      parseMessages { linked := .arr [.arr [.str "pkg-a", .str "pkg-a"]] }
        fakePackages (fun _ => []) :=
  linked_duplicate_within_one_group
    { linked := .arr [.arr [.str "pkg-a", .str "pkg-a"]] }
    fakePackages (fun _ => []) [["pkg-a", "pkg-a"]] ["pkg-a", "pkg-a"] "pkg-a"
    rfl (by decide) (by decide)

end Changesets
